import Mathlib

/-!
Shallow embedding of the tiliqua co-simulation harnesses
(`gateware/sim.cpp`, `gateware/src/example_vectorscope/sim/sim.cpp`,
`gateware/src/top/selftest/sim.cpp`, `gateware/src/example_dsp/sim_dsp_core.cpp`,
`gateware/src/top/dsp/sim_dsp_core.cpp`,
`gateware/src/top/vectorscope_no_soc/sim/tb-cxxrtl.cpp`) together with proofs
about the clock-domain scheduling, the PSRAM burst-memory emulation, the
display capture, the audio stimulus generation, the flash emulation, the
bandwidth accounting and the determinism of a full simulation run.

Machine integers are modelled as `Nat` with explicit `% 2 ^ 32` (for
`uint32_t` stores) and `% 256` (for `uint8_t` stores).  Byte-addressed
backing stores are total functions `Nat → Nat` whose values are kept
below 256 by construction.
-/

namespace Tiliqua

/-- A byte-addressed backing store (`uint8_t *psram_data`, `spiflash_data`,
`image_data` in the harnesses).  Values are bytes, kept `< 256` by every
writer via the explicit `% 256` of the `uint8_t` store. -/
def Mem : Type := Nat → Nat

/-- Store one byte: `mem[a] = v`.  The caller passes the already-truncated
byte value (the `(uint8_t)` cast appears at each call site, as in the C). -/
def memWriteByte (m : Mem) (a v : Nat) : Mem :=
  fun x => if x = a then v else m x

/-- `psram_size_bytes = 1024*1024*16` (gateware/sim.cpp line 58). -/
def psramSizeBytes : Nat := 1024 * 1024 * 16

/-- Little-endian 32-bit read of the PSRAM emulator, translated from
gateware/sim.cpp lines 111-116:
`(psram_data[aptr+3] << 24) | (psram_data[aptr+2] << 16) |
 (psram_data[aptr+1] << 8) | (psram_data[aptr+0] << 0)`. -/
def psramReadWord (m : Mem) (a : Nat) : Nat :=
  ((((m (a + 3)) <<< 24) ||| ((m (a + 2)) <<< 16)) ||| ((m (a + 1)) <<< 8)) |||
    ((m (a + 0)) <<< 0)

/-- Little-endian 32-bit write of the PSRAM emulator, translated from
gateware/sim.cpp lines 123-126:
`psram_data[aptr+k] = (uint8_t)(wdat >> 8k)` for `k = 0..3`. -/
def psramWriteWord (m : Mem) (a w : Nat) : Mem :=
  let m0 := memWriteByte m (a + 0) ((w >>> 0) % 256)
  let m1 := memWriteByte m0 (a + 1) ((w >>> 8) % 256)
  let m2 := memWriteByte m1 (a + 2) ((w >>> 16) % 256)
  memWriteByte m2 (a + 3) ((w >>> 24) % 256)

/-- The core's burst-memory bus outputs as sampled by the harness
(`top.p_read__ready`, `top.p_write__ready`, `top.p_address__ptr`,
`top.p_write__data`). -/
structure CoreBus where
  readReady : Bool
  writeReady : Bool
  addressPtr : Nat
  writeData : Nat

/-- Events recorded while the harness processes one active sync edge:
a burst read access, a burst write access, or a `top.step()`
re-evaluation of the core. -/
inductive BusEvent where
  | readAccess : Nat → Nat → BusEvent
  | writeAccess : Nat → Nat → BusEvent
  | coreEval : BusEvent
deriving DecidableEq

/-- Result of processing one active sync-domain edge: the new PSRAM
contents, the new value of `top.p_read__data__view`, and the ordered list
of bus events that occurred. -/
structure SyncEdgeResult where
  psram : Mem
  readDataView : Nat
  events : List BusEvent

/-- The bus outputs visible to the `write_ready` test.  In
gateware/sim.cpp the write branch re-reads the core's outputs after the
`top.step()` issued by the read branch, so if a read happened those are
the post-step outputs (`busMid`), otherwise the original ones. -/
def effBus (busPre busMid : CoreBus) : CoreBus :=
  if busPre.readReady then busMid else busPre

/-- One active sync-domain edge of the PSRAM emulator, translated from
gateware/sim.cpp lines 107-130.  First, if `read_ready`, the emulator
assembles the little-endian word at `address_ptr`, stores it (as
`uint32_t`, hence `% 2 ^ 32`) into `read_data_view` and calls
`top.step()`.  Then, if `write_ready` (re-sampled, see `effBus`), it
decomposes `write_data` into four little-endian bytes at `address_ptr`
and calls `top.step()` again. -/
def syncEdgeProcess (busPre busMid : CoreBus) (m : Mem) (rdv : Nat) : SyncEdgeResult :=
  let readPart : Nat × List BusEvent :=
    if busPre.readReady then
      let w := psramReadWord m busPre.addressPtr % 2 ^ 32
      (w, [BusEvent.readAccess busPre.addressPtr w, BusEvent.coreEval])
    else (rdv, [])
  let bus2 := effBus busPre busMid
  let writePart : Mem × List BusEvent :=
    if bus2.writeReady then
      (psramWriteWord m bus2.addressPtr bus2.writeData,
       [BusEvent.writeAccess bus2.addressPtr bus2.writeData, BusEvent.coreEval])
    else (m, [])
  { psram := writePart.1
    readDataView := readPart.1
    events := readPart.2 ++ writePart.2 }

/-- In an edge-processing event trace, every memory access is immediately
followed by a re-evaluation of the core. -/
def evalAfterAccess (l : List BusEvent) : Prop :=
  ∀ i a w,
    (l.get? i = some (BusEvent.readAccess a w) ∨
     l.get? i = some (BusEvent.writeAccess a w)) →
    l.get? (i + 1) = some BusEvent.coreEval

/-! ### Clock-domain scheduling

The main loop (gateware/sim.cpp lines 82-160) advances a global
nanosecond timestamp `t = 0, 1, 2, …` and, for each domain with
half-period `h` (`ns_in_X_cycle / 2`), toggles that domain's clock level
whenever `t % h == 0`. -/

/-- One global tick of one clock domain with half-period `h`: the pair is
(current clock level, number of toggles recorded so far). -/
def clockTick (h t : Nat) (s : Bool × Nat) : Bool × Nat :=
  if t % h = 0 then (!s.1, s.2 + 1) else s

/-- Run the clock of one domain for global timestamps `0, …, T - 1`,
starting from level low with no recorded toggles. -/
def clockRun (h T : Nat) : Bool × Nat :=
  (List.range T).foldl (fun s t => clockTick h t s) (false, 0)

/-- Number of toggles of a domain with half-period `h` recorded over a run
of `T` global ticks. -/
def toggleCount (h T : Nat) : Nat := (clockRun h T).2

/-! ### Little-endian word assembly -/

/-! ### Audio-codec stimulus emulator

Translated from gateware/sim.cpp lines 133-152.  `mod_pmod` and
`pmod_clocks` are `uint32_t` counters (hence `% 2 ^ 32` on increment).
The synthetic injection values
`(int16_t)20000.0*sin((float)pmod_clocks / 6000.0)` etc. are pure
functions of `pmod_clocks` alone; their floating-point bodies are
abstracted as parameters `i0 i1 i3 : Nat → Int`. -/

/-- Harness state for the audio clock domain on its active edges. -/
structure AudioState where
  modPmod : Nat
  pmodClocks : Nat
  fsStrobe : Bool
  inj0 : Int
  inj1 : Int
  inj3 : Int

/-- One active edge of the audio clock domain (gateware/sim.cpp lines
135-151): on a sample boundary (`mod_pmod % 256 == 0`) increment
`pmod_clocks`, assert `fs_strobe` and inject the synthetic values
computed from the incremented counter; otherwise deassert `fs_strobe` if
it was asserted.  In both cases `mod_pmod` is incremented afterwards. -/
def audioEdge (i0 i1 i3 : Nat → Int) (s : AudioState) : AudioState :=
  if s.modPmod % 256 = 0 then
    let pc := (s.pmodClocks + 1) % 2 ^ 32
    { modPmod := (s.modPmod + 1) % 2 ^ 32
      pmodClocks := pc
      fsStrobe := true
      inj0 := i0 pc
      inj1 := i1 pc
      inj3 := i3 pc }
  else
    { s with
      fsStrobe := if s.fsStrobe then false else s.fsStrobe
      modPmod := (s.modPmod + 1) % 2 ^ 32 }

/-- Initial audio state: `mod_pmod = 0`, `pmod_clocks = 0`, strobe and
injections at their power-on value 0 (gateware/sim.cpp lines 67-68). -/
def audioInit : AudioState :=
  { modPmod := 0, pmodClocks := 0, fsStrobe := false
    inj0 := 0, inj1 := 0, inj3 := 0 }

/-- The audio state after `n` active audio-domain edges. -/
def audioRun (i0 i1 i3 : Nat → Int) (n : Nat) : AudioState :=
  (List.range n).foldl (fun s _ => audioEdge i0 i1 i3 s) audioInit

/-- Number of sample boundaries among the first `n` active audio edges:
the edges whose `mod_pmod` value satisfied `mod_pmod % 256 == 0`. -/
def sampleBoundaries (n : Nat) : Nat :=
  (List.range n).countP (fun t => t % 256 == 0)

/-! ### Display-capture emulator

Translated from gateware/sim.cpp lines 84-102.  `DVI_H_ACTIVE` and
`DVI_V_ACTIVE` are compile-time configuration constants, modelled as
parameters `H` and `V`. -/

/-- The core's DVI PHY outputs sampled on an active pixel-clock edge. -/
structure DviOut where
  x : Nat
  y : Nat
  r : Nat
  g : Nat
  b : Nat

/-- Row-major frame-buffer byte offset of channel `c` of pixel `(x, y)`:
`y*DVI_H_ACTIVE*3 + x*3 + c` (gateware/sim.cpp lines 90-92). -/
def fbIndex (H x y c : Nat) : Nat := y * H * 3 + x * 3 + c

/-- Allocated frame-buffer size `DVI_H_ACTIVE*DVI_V_ACTIVE*3`
(gateware/sim.cpp line 63, with `im_stride = 3`). -/
def fbSize (H V : Nat) : Nat := H * V * 3

/-- Display-capture state: the frame buffer, the `frames` counter and the
list of frames handed to the image sink, each tagged with its frame
index. -/
structure DviCapture where
  image : Mem
  frames : Nat
  emitted : List (Nat × Mem)

/-- One active pixel-clock edge of the display-capture emulator
(gateware/sim.cpp lines 86-101): if `(x, y)` is inside the active area,
store the three channel bytes (as `uint8_t`, hence `% 256`) at the
row-major offset; if `(x, y)` is the last active pixel, hand the frame
buffer to the image sink tagged with the current `frames` index and
increment `frames`. -/
def dviEdgeProcess (H V : Nat) (o : DviOut) (s : DviCapture) : DviCapture :=
  let img1 := memWriteByte s.image (fbIndex H o.x o.y 0) (o.r % 256)
  let img2 := memWriteByte img1 (fbIndex H o.x o.y 1) (o.g % 256)
  let img3 := memWriteByte img2 (fbIndex H o.x o.y 2) (o.b % 256)
  let s1 :=
    if o.x < H ∧ o.y < V then { s with image := img3 }
    else s
  if o.x = H - 1 ∧ o.y = V - 1 then
    { s1 with
      emitted := s1.emitted ++ [(s1.frames, s1.image)]
      frames := s1.frames + 1 }
  else s1

/-! ### Bandwidth accounting

Translated from gateware/src/example_vectorscope/sim/sim.cpp lines
168-173: the `idle` status output of the core is sampled once per
iteration of the main `while` loop, i.e. once per global simulated tick,
and one of the two accumulators is incremented. -/

/-- The two bandwidth accumulators `idle_hi` and `idle_lo`. -/
structure BwCounters where
  idleHi : Nat
  idleLo : Nat

/-- One sample of the core's `idle` output
(gateware/src/example_vectorscope/sim/sim.cpp lines 169-173). -/
def bwSample (idle : Bool) (s : BwCounters) : BwCounters :=
  if idle then { s with idleHi := s.idleHi + 1 }
  else { s with idleLo := s.idleLo + 1 }

/-- Bandwidth counters after `T` iterations of the main loop, where
`idle t` is the core's `idle` output during iteration `t`. -/
def bwRun (idle : Nat → Bool) (T : Nat) : BwCounters :=
  (List.range T).foldl (fun s t => bwSample (idle t) s) ⟨0, 0⟩

/-! ### Flash/firmware emulator and the selftest harness tick

Translated from gateware/src/top/selftest/sim.cpp.  The SPI flash backing
store is zero-filled and the firmware image is copied in at byte offset
`SPIFLASH_FW_OFFSET` (lines 61-69); on every iteration of the main loop
the 32-bit word at the core-provided word address is published to
`top->spiflash_data` (line 93), before any clock-edge processing.  There
is no code path that writes to `spiflash_data`. -/

/-- `spiflash_size_bytes = 1024*1024*32` (top/selftest/sim.cpp line 61). -/
def spiflashSizeBytes : Nat := 1024 * 1024 * 32

/-- The flash backing store at session start: zero-filled, with the
firmware bytes `fw` copied in at byte offset `off`
(top/selftest/sim.cpp lines 63-68).  Stored values are bytes
(`% 256`). -/
def initFlash (off : Nat) (fw : List Nat) : Mem :=
  fun i =>
    if off ≤ i ∧ i < off + fw.length then fw.getD (i - off) 0 % 256 else 0

/-- The 32-bit word published for word address `addr`:
`((uint32_t*)spiflash_data)[addr]` on a little-endian host
(top/selftest/sim.cpp line 93). -/
def flashWordAt (flash : Mem) (addr : Nat) : Nat :=
  flash (4 * addr) + 2 ^ 8 * flash (4 * addr + 1) +
    2 ^ 16 * flash (4 * addr + 2) + 2 ^ 24 * flash (4 * addr + 3)

/-- Core outputs sampled by the selftest harness during one loop
iteration. -/
structure SelftestIn where
  spiflashAddr : Nat
  dvi : DviOut
  bus : CoreBus
  uartStb : Bool
  uartData : Nat

/-- Harness-side state of the selftest simulation. -/
structure SelftestSt where
  flash : Mem
  spiflashData : Nat
  clkDvi : Bool
  clkSync : Bool
  clkAudio : Bool
  capture : DviCapture
  psram : Mem
  readDataView : Nat
  serialBytes : List Nat
  modPmod : Nat
  pmodClocks : Nat
  fsStrobe : Bool

/-- The DVI-domain block of the selftest main loop (top/selftest/sim.cpp
lines 96-114): on `t % hdvi == 0` toggle the pixel clock and, on the
rising edge, capture the sampled pixel. -/
def selftestDviStage (H V hdvi t : Nat) (inp : SelftestIn) (s : SelftestSt) : SelftestSt :=
  if t % hdvi = 0 then
    let clk := !s.clkDvi
    if clk then
      { s with clkDvi := clk, capture := dviEdgeProcess H V inp.dvi s.capture }
    else { s with clkDvi := clk }
  else s

/-- The sync-domain block of the selftest main loop (top/selftest/sim.cpp
lines 117-144): on `t % hsync == 0` toggle the sync clock and, on the
rising edge, run the PSRAM read/write emulation and capture a UART byte
if the core strobes one. -/
def selftestSyncStage (hsync t : Nat) (inp : SelftestIn) (s : SelftestSt) : SelftestSt :=
  if t % hsync = 0 then
    let clk := !s.clkSync
    if clk then
      let rdv :=
        if inp.bus.readReady then
          psramReadWord s.psram inp.bus.addressPtr % 2 ^ 32
        else s.readDataView
      let m :=
        if inp.bus.writeReady then
          psramWriteWord s.psram inp.bus.addressPtr inp.bus.writeData
        else s.psram
      let serial :=
        if inp.uartStb then s.serialBytes ++ [inp.uartData] else s.serialBytes
      { s with clkSync := clk, readDataView := rdv, psram := m,
               serialBytes := serial }
    else { s with clkSync := clk }
  else s

/-- The audio-domain block of the selftest main loop (top/selftest/sim.cpp
lines 147-168): the injections of this harness are commented out in the
source, so only the strobe and the counters are driven. -/
def selftestAudioStage (haudio t : Nat) (s : SelftestSt) : SelftestSt :=
  if t % haudio = 0 then
    let clk := !s.clkAudio
    if clk then
      if s.modPmod % 256 = 0 then
        { s with clkAudio := clk,
                 pmodClocks := (s.pmodClocks + 1) % 2 ^ 32,
                 fsStrobe := true,
                 modPmod := (s.modPmod + 1) % 2 ^ 32 }
      else
        { s with clkAudio := clk,
                 fsStrobe := if s.fsStrobe then false else s.fsStrobe,
                 modPmod := (s.modPmod + 1) % 2 ^ 32 }
    else { s with clkAudio := clk }
  else s

/-- One iteration of the selftest main loop (top/selftest/sim.cpp lines
89-175) at global timestamp `t`: publish the flash word
(`top->spiflash_data = ((uint32_t*)spiflash_data)[top->spiflash_addr]`,
line 93), then process the DVI, sync and audio domains in order. -/
def selftestTick (H V hdvi hsync haudio : Nat) (t : Nat) (inp : SelftestIn)
    (s : SelftestSt) : SelftestSt :=
  selftestAudioStage haudio t
    (selftestSyncStage hsync t inp
      (selftestDviStage H V hdvi t inp
        { s with spiflashData := flashWordAt s.flash inp.spiflashAddr }))

/-! ### Full simulation run (gateware/sim.cpp lines 82-160)

The black-box cxxrtl core (`cxxrtl_design::p_top`) is modelled as an
abstract deterministic transition system over a state type `κ`:
`top.step()` is `step`, reading output ports is `out`, and the harness's
input ports are collected in `CoreSig` (posted values take effect at the
next `step`, exactly as in cxxrtl).  The synthetic audio computations
`(int16_t)20000.0*sin(...)` are pure functions of `pmod_clocks`,
abstracted as the configuration fields `i0 i1 i3`. -/

/-- The input ports the harness drives on the core. -/
structure CoreSig where
  clkDvi : Bool
  clkSync : Bool
  clkAudio : Bool
  fsStrobe : Bool
  inj0 : Int
  inj1 : Int
  inj3 : Int
  readDataView : Nat

/-- The output ports the harness samples from the core. -/
structure CoreOut where
  dvi : DviOut
  bus : CoreBus

/-- A black-box deterministic core: `step` advances the core given the
currently posted input-port values; `out` reads the output ports. -/
structure CoreModel (κ : Type) where
  step : κ → CoreSig → κ
  out : κ → CoreOut

/-- Configuration of one simulation session: the three half-periods, the
active display area, the injection functions and the core model. -/
structure SimCfg (κ : Type) where
  hdvi : Nat
  hsync : Nat
  haudio : Nat
  H : Nat
  V : Nat
  i0 : Nat → Int
  i1 : Nat → Int
  i3 : Nat → Int
  M : CoreModel κ

/-- Complete state of the harness main loop. -/
structure SimSt (κ : Type) where
  sig : CoreSig
  core : κ
  psram : Mem
  capture : DviCapture
  modPmod : Nat
  pmodClocks : Nat

/-- One iteration of the main loop of gateware/sim.cpp (lines 82-160) at
global timestamp `t`: toggle each domain whose half-period divides `t`
and run its edge handler on the falling edge (`if (!top.p_clk__X...)`
after the toggle), then `top.step()` once at the end of the
iteration. -/
def simTick {κ : Type} (cfg : SimCfg κ) (t : Nat) (s : SimSt κ) : SimSt κ :=
  -- DVI domain (lines 84-102): pixel capture on the active edge.
  let s : SimSt κ :=
    if t % cfg.hdvi = 0 then
      let sig := { s.sig with clkDvi := !s.sig.clkDvi }
      if !sig.clkDvi then
        { s with sig := sig
                 capture := dviEdgeProcess cfg.H cfg.V (cfg.M.out s.core).dvi s.capture }
      else { s with sig := sig }
    else s
  -- Sync domain (lines 104-131): PSRAM emulation with a core step after
  -- each access.
  let s : SimSt κ :=
    if t % cfg.hsync = 0 then
      let sig := { s.sig with clkSync := !s.sig.clkSync }
      if !sig.clkSync then
        let busPre := (cfg.M.out s.core).bus
        let afterRead : CoreSig × κ :=
          if busPre.readReady then
            let sig2 := { sig with
              readDataView := psramReadWord s.psram busPre.addressPtr % 2 ^ 32 }
            (sig2, cfg.M.step s.core sig2)
          else (sig, s.core)
        let sig2 := afterRead.1
        let core2 := afterRead.2
        let busMid := (cfg.M.out core2).bus
        let afterWrite : Mem × κ :=
          if busMid.writeReady then
            (psramWriteWord s.psram busMid.addressPtr busMid.writeData,
             cfg.M.step core2 sig2)
          else (s.psram, core2)
        { s with sig := sig2, core := afterWrite.2, psram := afterWrite.1 }
      else { s with sig := sig }
    else s
  -- Audio domain (lines 133-152): stimulus injection on the active edge.
  let s : SimSt κ :=
    if t % cfg.haudio = 0 then
      let sig := { s.sig with clkAudio := !s.sig.clkAudio }
      if !sig.clkAudio then
        if s.modPmod % 256 = 0 then
          let pc := (s.pmodClocks + 1) % 2 ^ 32
          { s with sig := { sig with fsStrobe := true, inj0 := cfg.i0 pc,
                                     inj1 := cfg.i1 pc, inj3 := cfg.i3 pc }
                   pmodClocks := pc
                   modPmod := (s.modPmod + 1) % 2 ^ 32 }
        else
          { s with sig := { sig with
                     fsStrobe := if sig.fsStrobe then false else sig.fsStrobe }
                   modPmod := (s.modPmod + 1) % 2 ^ 32 }
      else { s with sig := sig }
    else s
  -- Final top.step() of the iteration (line 154).
  { s with core := cfg.M.step s.core s.sig }

/-- The reachability relation of a simulation session: `SimRun cfg s0 n s`
holds when, starting from state `s0`, `n` iterations of the main loop at
timestamps `0, …, n - 1` lead to state `s`. -/
inductive SimRun {κ : Type} (cfg : SimCfg κ) (s0 : SimSt κ) : Nat → SimSt κ → Prop where
  | start : SimRun cfg s0 0 s0
  | tick : ∀ {n : Nat} {s : SimSt κ},
      SimRun cfg s0 n s → SimRun cfg s0 (n + 1) (simTick cfg n s)

/-! ### Concrete instances used to exercise the theorems -/

/-- A trivial black-box core used to instantiate the abstract core model on
concrete runs: one unit of state, constant outputs. -/
def unitCoreModel : CoreModel Unit where
  step := fun _ _ => ()
  out := fun _ =>
    { dvi := { x := 0, y := 0, r := 0, g := 0, b := 0 }
      bus := { readReady := false, writeReady := false, addressPtr := 0, writeData := 0 } }

/-- A concrete simulation configuration (half-periods 2/4/8, a 4x4
active area, identity injection functions, trivial core). -/
def unitSimCfg : SimCfg Unit where
  hdvi := 2
  hsync := 4
  haudio := 8
  H := 4
  V := 4
  i0 := fun k => (k : Int)
  i1 := fun k => (k : Int)
  i3 := fun k => (k : Int)
  M := unitCoreModel

/-- The concrete start state matching the harness after reset: clocks
low, zeroed PSRAM and frame buffer, counters at zero. -/
def unitSimStart : SimSt Unit where
  sig :=
    { clkDvi := false, clkSync := false, clkAudio := false, fsStrobe := false
      inj0 := 0, inj1 := 0, inj3 := 0, readDataView := 0 }
  core := ()
  psram := fun _ => 0
  capture := { image := fun _ => 0, frames := 0, emitted := [] }
  modPmod := 0
  pmodClocks := 0

/-- The identity injection function, used to exercise the audio-stimulus
theorems on a concrete run. -/
def injId : Nat → Int := fun k => (k : Int)

/-! ### Supporting lemmas -/

lemma clockRun_succ (h T : Nat) :
    clockRun h (T + 1) = clockTick h T (clockRun h T) := by
  unfold clockRun
  rw [List.range_succ, List.foldl_append]
  rfl

lemma toggleCount_succ (h T : Nat) :
    toggleCount h (T + 1) = toggleCount h T + (if T % h = 0 then 1 else 0) := by
  unfold toggleCount
  rw [clockRun_succ]
  unfold clockTick
  split <;> simp

/-- The ceiling count `(T + h - 1) / h` gains one exactly at the
multiples of `h`. -/
lemma ceil_div_step (h T : Nat) (hp : 0 < h) :
    (T + 1 + h - 1) / h = (T + h - 1) / h + (if T % h = 0 then 1 else 0) := by
  have hTh : T + 1 + h - 1 = T + h := by omega
  rw [hTh, Nat.add_div_right T hp]
  rcases Nat.eq_zero_or_pos T with hT | hT
  · subst hT
    simp [Nat.div_eq_of_lt (show h - 1 < h by omega)]
  · have hT1 : T + h - 1 = (T - 1) + h := by omega
    rw [hT1, Nat.add_div_right _ hp]
    have hsd := Nat.succ_div (T - 1) h
    rw [show T - 1 + 1 = T by omega] at hsd
    rw [hsd]
    by_cases hd : h ∣ T
    · rw [if_pos hd, if_pos (Nat.dvd_iff_mod_eq_zero.mp hd)]
    · rw [if_neg hd, if_neg (fun e => hd (Nat.dvd_iff_mod_eq_zero.mpr e))]

lemma toggleCount_eq_ceil (h : Nat) (hp : 0 < h) :
    ∀ T, toggleCount h T = (T + h - 1) / h := by
  intro T
  induction T with
  | zero =>
      unfold toggleCount clockRun
      simp [Nat.div_eq_of_lt (show h - 1 < h by omega)]
  | succ T ih =>
      rw [toggleCount_succ, ih, ceil_div_step h T hp]

/-- Shifted disjoint bitfields combine by addition: `2 ^ i * a ||| b` is
`2 ^ i * a + b` when `b < 2 ^ i`. -/
lemma lor_eq_add_of_lt {i b : Nat} (hb : b < 2 ^ i) (a : Nat) :
    (2 ^ i * a) ||| b = 2 ^ i * a + b :=
  (Nat.mul_add_lt_is_or hb a).symm

/-- The C expression `(b3 << 24) | (b2 << 16) | (b1 << 8) | (b0 << 0)` on
byte values equals the weighted sum `2^24*b3 + 2^16*b2 + 2^8*b1 + b0`. -/
lemma leAssemble (b0 b1 b2 b3 : Nat)
    (h0 : b0 < 256) (h1 : b1 < 256) (h2 : b2 < 256) (_h3 : b3 < 256) :
    (((b3 <<< 24) ||| (b2 <<< 16)) ||| (b1 <<< 8)) ||| (b0 <<< 0) =
      2 ^ 24 * b3 + 2 ^ 16 * b2 + 2 ^ 8 * b1 + b0 := by
  rw [Nat.shiftLeft_eq b3 24, Nat.shiftLeft_eq b2 16, Nat.shiftLeft_eq b1 8,
      Nat.shiftLeft_eq b0 0]
  rw [show b3 * 2 ^ 24 = 2 ^ 24 * b3 by ring]
  rw [lor_eq_add_of_lt (show b2 * 2 ^ 16 < 2 ^ 24 by omega)]
  rw [show 2 ^ 24 * b3 + b2 * 2 ^ 16 = 2 ^ 16 * (2 ^ 8 * b3 + b2) by ring]
  rw [lor_eq_add_of_lt (show b1 * 2 ^ 8 < 2 ^ 16 by omega)]
  rw [show 2 ^ 16 * (2 ^ 8 * b3 + b2) + b1 * 2 ^ 8 =
        2 ^ 8 * (2 ^ 8 * (2 ^ 8 * b3 + b2) + b1) by ring]
  rw [lor_eq_add_of_lt (show b0 * 2 ^ 0 < 2 ^ 8 by omega)]
  ring

lemma psramWriteWord_byte0 (m : Mem) (a w : Nat) :
    psramWriteWord m a w (a + 0) = (w >>> 0) % 256 := by
  simp only [psramWriteWord, memWriteByte]
  rw [if_neg (by omega), if_neg (by omega), if_neg (by omega)]
  simp

lemma psramWriteWord_byte1 (m : Mem) (a w : Nat) :
    psramWriteWord m a w (a + 1) = (w >>> 8) % 256 := by
  simp only [psramWriteWord, memWriteByte]
  rw [if_neg (by omega), if_neg (by omega)]
  simp

lemma psramWriteWord_byte2 (m : Mem) (a w : Nat) :
    psramWriteWord m a w (a + 2) = (w >>> 16) % 256 := by
  simp only [psramWriteWord, memWriteByte]
  rw [if_neg (by omega)]
  simp

lemma psramWriteWord_byte3 (m : Mem) (a w : Nat) :
    psramWriteWord m a w (a + 3) = (w >>> 24) % 256 := by
  simp only [psramWriteWord, memWriteByte]
  simp

/-- Bytes outside `a, a+1, a+2, a+3` are untouched by `psramWriteWord`. -/
lemma psramWriteWord_frame (m : Mem) (a w i : Nat)
    (n0 : i ≠ a) (n1 : i ≠ a + 1) (n2 : i ≠ a + 2) (n3 : i ≠ a + 3) :
    psramWriteWord m a w i = m i := by
  simp only [psramWriteWord, memWriteByte]
  rw [if_neg (by omega), if_neg (by omega), if_neg (by omega), if_neg (by omega)]

/-- Full round trip through the PSRAM emulator memory: writing a 32-bit
word and assembling the little-endian word at the same address returns
the word. -/
lemma psramReadWord_writeWord (m : Mem) (a w : Nat) (hw : w < 2 ^ 32) :
    psramReadWord (psramWriteWord m a w) a % 2 ^ 32 = w := by
  unfold psramReadWord
  rw [psramWriteWord_byte0, psramWriteWord_byte1, psramWriteWord_byte2,
      psramWriteWord_byte3]
  rw [Nat.shiftRight_eq_div_pow, Nat.shiftRight_eq_div_pow,
      Nat.shiftRight_eq_div_pow, Nat.shiftRight_eq_div_pow]
  rw [leAssemble _ _ _ _ (by omega) (by omega) (by omega) (by omega)]
  omega

lemma audioRun_succ (i0 i1 i3 : Nat → Int) (n : Nat) :
    audioRun i0 i1 i3 (n + 1) = audioEdge i0 i1 i3 (audioRun i0 i1 i3 n) := by
  unfold audioRun
  rw [List.range_succ, List.foldl_append]
  rfl

lemma sampleBoundaries_succ (n : Nat) :
    sampleBoundaries (n + 1) =
      sampleBoundaries n + (if n % 256 = 0 then 1 else 0) := by
  unfold sampleBoundaries
  rw [List.range_succ, List.countP_append]
  by_cases h : n % 256 = 0 <;> simp [List.countP_cons, h]

lemma sampleBoundaries_eq_ceil : ∀ n, sampleBoundaries n = (n + 255) / 256 := by
  intro n
  induction n with
  | zero =>
      unfold sampleBoundaries
      simp [Nat.div_eq_of_lt (show 255 < 256 by omega)]
  | succ n ih =>
      have := ceil_div_step 256 n (by omega)
      rw [sampleBoundaries_succ, ih]
      omega

/-- Master invariant of the audio stimulus counters: after `n` active
edges, `mod_pmod = n % 2^32` and `pmod_clocks` is the (wrapped) number of
sample boundaries seen so far. -/
lemma audioRun_counters (i0 i1 i3 : Nat → Int) :
    ∀ n, (audioRun i0 i1 i3 n).modPmod = n % 2 ^ 32 ∧
      (audioRun i0 i1 i3 n).pmodClocks = ((n + 255) / 256) % 2 ^ 32 := by
  intro n
  induction n with
  | zero =>
      constructor
      · rfl
      · show (0 : Nat) = (255 / 256) % 2 ^ 32
        norm_num
  | succ n ih =>
      obtain ⟨hm, hp⟩ := ih
      rw [audioRun_succ]
      unfold audioEdge
      have hmod : (audioRun i0 i1 i3 n).modPmod % 256 = n % 256 := by
        rw [hm]
        exact Nat.mod_mod_of_dvd n (by norm_num)
      by_cases hb : n % 256 = 0
      · rw [if_pos (by rw [hmod]; exact hb)]
        have hceil := ceil_div_step 256 n (by omega)
        rw [if_pos hb] at hceil
        constructor
        · show ((audioRun i0 i1 i3 n).modPmod + 1) % 2 ^ 32 = (n + 1) % 2 ^ 32
          rw [hm]
          omega
        · show ((audioRun i0 i1 i3 n).pmodClocks + 1) % 2 ^ 32 =
            ((n + 1 + 255) / 256) % 2 ^ 32
          rw [hp]
          have : (n + 1 + 255) / 256 = (n + 255) / 256 + 1 := by omega
          rw [this]
          omega
      · rw [if_neg (by rw [hmod]; exact hb)]
        have hceil := ceil_div_step 256 n (by omega)
        rw [if_neg hb] at hceil
        constructor
        · show ((audioRun i0 i1 i3 n).modPmod + 1) % 2 ^ 32 = (n + 1) % 2 ^ 32
          rw [hm]
          omega
        · show (audioRun i0 i1 i3 n).pmodClocks = ((n + 1 + 255) / 256) % 2 ^ 32
          rw [hp]
          have : (n + 1 + 255) / 256 = (n + 255) / 256 := by omega
          rw [this]

lemma bwRun_succ (idle : Nat → Bool) (T : Nat) :
    bwRun idle (T + 1) = bwSample (idle T) (bwRun idle T) := by
  unfold bwRun
  rw [List.range_succ, List.foldl_append]
  rfl

/-! ### Claim theorems -/

/-- Claim C1, counterexample to the claim as stated: with half-period 2,
a run of 1 global tick records one toggle (at timestamp 0, since
`0 % 2 == 0`), while `floor(1 / 2) = 0`. -/
theorem C1_counterexample : ¬ (toggleCount 2 1 = 1 / 2) := by decide

/-- Claim C1 (amended): a domain with half-period `h > 0` global ticks
has its clock level toggled at exactly those global timestamps `t` with
`t % h == 0`, and over a run of `T` ticks the total number of recorded
toggles equals `ceil(T / h) = (T + h - 1) / h` exactly, with no
cumulative drift (this equals `floor(T / h)` exactly when `h` divides
`T`; the timestamps `0, h, 2h, …` themselves are included in the run). -/
theorem C1_toggle_schedule (h T : Nat) (hp : 0 < h) :
    (∀ t s, (clockTick h t s).1 ≠ s.1 ↔ t % h = 0) ∧
    toggleCount h T = (T + h - 1) / h := by
  constructor
  · intro t s
    unfold clockTick
    by_cases hb : t % h = 0
    · simp [hb]
    · simp [hb]
  · exact toggleCount_eq_ceil h hp T

/-- Witness for C1: half-period 8 over 20 ticks gives
`ceil(20 / 8) = 3` recorded toggles. -/
theorem C1_toggle_schedule_witness :
    (0 < 8 ∧ toggleCount 8 20 = (20 + 8 - 1) / 8) ∧ toggleCount 8 20 = 3 :=
  ⟨⟨by decide, (C1_toggle_schedule 8 20 (by decide)).2⟩, by decide⟩

/-- Claim C2: writing word `W` to word-aligned in-bounds address `A` on
one active sync edge (write-ready asserted) and reading `A` on the next
active edge (read-ready asserted, no intervening write to `A`) makes the
emulator drive `read_data_view` to exactly `W`, for every
`W < 2 ^ 32`. -/
theorem C2_burst_roundtrip (m : Mem) (rdv0 rdv1 A W wd2 : Nat)
    (busMid1 busMid2 : CoreBus) (wr2 : Bool)
    (hW : W < 2 ^ 32) (hAlign : A % 4 = 0) (hBound : A + 3 < psramSizeBytes) :
    (syncEdgeProcess
      { readReady := true, writeReady := wr2, addressPtr := A, writeData := wd2 }
      busMid2
      (syncEdgeProcess
        { readReady := false, writeReady := true, addressPtr := A, writeData := W }
        busMid1 m rdv0).psram
      rdv1).readDataView = W := by
  simp only [syncEdgeProcess, effBus]
  simp only [Bool.false_eq_true, if_false, if_true]
  exact psramReadWord_writeWord m A W hW

/-- Witness for C2: round trip of the word `66051 = 0x00010203` at
address 4 through an all-zero PSRAM. -/
theorem C2_burst_roundtrip_witness :
    (66051 : Nat) < 2 ^ 32 ∧ (4 : Nat) % 4 = 0 ∧ 4 + 3 < psramSizeBytes ∧
    (syncEdgeProcess
      { readReady := true, writeReady := false, addressPtr := 4, writeData := 0 }
      { readReady := false, writeReady := false, addressPtr := 0, writeData := 0 }
      (syncEdgeProcess
        { readReady := false, writeReady := true, addressPtr := 4, writeData := 66051 }
        { readReady := false, writeReady := false, addressPtr := 0, writeData := 0 }
        (fun _ => 0) 0).psram
      0).readDataView = 66051 :=
  ⟨by decide, by decide, by decide,
    C2_burst_roundtrip (fun _ => 0) 0 0 4 66051 0
      { readReady := false, writeReady := false, addressPtr := 0, writeData := 0 }
      { readReady := false, writeReady := false, addressPtr := 0, writeData := 0 }
      false (by decide) (by decide) (by decide)⟩

/-- Claim C5: after any active audio-domain edge, the frame-sync strobe
is asserted exactly when that edge was a sample boundary (every 256th
active edge, `mod_pmod % 256 == 0`); on every non-boundary active edge it
is deasserted (if it was previously asserted), so the strobe is a
single-tick pulse and is never held high longer than one domain tick. -/
theorem C5_strobe_single_tick (i0 i1 i3 : Nat → Int) (n : Nat) :
    (audioRun i0 i1 i3 (n + 1)).fsStrobe = decide (n % 256 = 0) := by
  rw [audioRun_succ]
  obtain ⟨hm, _⟩ := audioRun_counters i0 i1 i3 n
  have hmod : (audioRun i0 i1 i3 n).modPmod % 256 = n % 256 := by
    rw [hm]
    exact Nat.mod_mod_of_dvd n (by norm_num)
  unfold audioEdge
  by_cases hb : n % 256 = 0
  · rw [if_pos (by rw [hmod]; exact hb)]
    simp [hb]
  · rw [if_neg (by rw [hmod]; exact hb)]
    simp only [hb, decide_eq_true_eq]
    cases hs : (audioRun i0 i1 i3 n).fsStrobe <;> simp [hs, hb]

/-- Claim C6, counterexample to the claim as stated: with the sync
half-period 8 of the 60 MHz domain, a run of 8 loop iterations samples
the idle flag 8 times (`idle_hi + idle_lo = 8`), while only 1
sync-domain edge occurred. -/
theorem C6_counterexample :
    ¬ ((bwRun (fun _ => true) 8).idleHi + (bwRun (fun _ => true) 8).idleLo =
        toggleCount 8 8) := by decide

/-- Claim C6 (amended): the idle accumulator plus the busy accumulator
equals the total number of iterations of the main loop — one sample per
global simulated tick (the `idle` probe sits outside the sync-edge
guard), not one per sync-domain edge — for all run lengths and every
behaviour of the core's idle output. -/
theorem C6_bandwidth_sum (idle : Nat → Bool) (T : Nat) :
    (bwRun idle T).idleHi + (bwRun idle T).idleLo = T := by
  induction T with
  | zero => rfl
  | succ T ih =>
      rw [bwRun_succ]
      unfold bwSample
      by_cases hi : idle T <;> simp [hi] <;> omega

/-- The frame buffer written by a pixel-clock edge, as a function of the
active-area test alone (the emit branch does not modify the image). -/
lemma dviEdgeProcess_image (H V : Nat) (o : DviOut) (s : DviCapture) :
    (dviEdgeProcess H V o s).image =
      if o.x < H ∧ o.y < V then
        memWriteByte
          (memWriteByte
            (memWriteByte s.image (fbIndex H o.x o.y 0) (o.r % 256))
            (fbIndex H o.x o.y 1) (o.g % 256))
          (fbIndex H o.x o.y 2) (o.b % 256)
      else s.image := by
  simp only [dviEdgeProcess]
  split_ifs <;> rfl

/-- The `frames` counter after a pixel-clock edge: incremented exactly
when the sampled coordinate is the last active pixel. -/
lemma dviEdgeProcess_frames (H V : Nat) (o : DviOut) (s : DviCapture) :
    (dviEdgeProcess H V o s).frames =
      if o.x = H - 1 ∧ o.y = V - 1 then s.frames + 1 else s.frames := by
  simp only [dviEdgeProcess]
  split_ifs <;> rfl

/-- The emitted-frames list after a pixel-clock edge: the completed frame
buffer, tagged with the pre-edge `frames` index, is appended exactly when
the sampled coordinate is the last active pixel. -/
lemma dviEdgeProcess_emitted (H V : Nat) (o : DviOut) (s : DviCapture) :
    (dviEdgeProcess H V o s).emitted =
      if o.x = H - 1 ∧ o.y = V - 1 then
        s.emitted ++ [(s.frames, (dviEdgeProcess H V o s).image)]
      else s.emitted := by
  simp only [dviEdgeProcess]
  split_ifs <;> rfl

/-- Every channel offset of an in-area pixel lies inside the allocated
frame buffer. -/
lemma fbIndex_lt_fbSize {H V x y c : Nat} (hx : x < H) (hy : y < V) (hc : c < 3) :
    fbIndex H x y c < fbSize H V := by
  unfold fbIndex fbSize
  have h3 : (y + 1) * H ≤ V * H := Nat.mul_le_mul_right H hy
  nlinarith [h3, hx, hc]

/-- Claim C9: for every pixel sample that passes the active-area guard
(`x < DVI_H_ACTIVE` and `y < DVI_V_ACTIVE`) and every channel
`c ∈ {0, 1, 2}`, the frame-buffer index `y*DVI_H_ACTIVE*3 + x*3 + c` is
strictly below the allocated size `DVI_H_ACTIVE*DVI_V_ACTIVE*3`, and
consequently a pixel-clock edge never writes the frame buffer at or
beyond its allocated size: the guard alone makes every write
in-bounds. -/
theorem C9_fb_writes_in_bounds (H V x y c : Nat)
    (hx : x < H) (hy : y < V) (hc : c < 3) :
    fbIndex H x y c < fbSize H V ∧
    (∀ (o : DviOut) (s : DviCapture) (i : Nat), fbSize H V ≤ i →
      (dviEdgeProcess H V o s).image i = s.image i) := by
  refine ⟨fbIndex_lt_fbSize hx hy hc, ?_⟩
  intro o s i hi
  rw [dviEdgeProcess_image]
  by_cases hin : o.x < H ∧ o.y < V
  · have b0 := fbIndex_lt_fbSize (c := 0) hin.1 hin.2 (by omega)
    have b1 := fbIndex_lt_fbSize (c := 1) hin.1 hin.2 (by omega)
    have b2 := fbIndex_lt_fbSize (c := 2) hin.1 hin.2 (by omega)
    rw [if_pos hin]
    simp only [memWriteByte]
    rw [if_neg (by omega), if_neg (by omega), if_neg (by omega)]
  · rw [if_neg hin]

/-- Witness for C9: on a 4x3 display the last channel of the last pixel
sits at index 35, below the buffer size 36. -/
theorem C9_fb_writes_in_bounds_witness :
    ((3 : Nat) < 4 ∧ (2 : Nat) < 3 ∧ (2 : Nat) < 3) ∧
    fbIndex 4 3 2 2 < fbSize 4 3 ∧ fbIndex 4 3 2 2 = 35 ∧ fbSize 4 3 = 36 :=
  ⟨⟨by decide, by decide, by decide⟩,
    (C9_fb_writes_in_bounds 4 3 3 2 2 (by decide) (by decide) (by decide)).1,
    by decide, by decide⟩

/-- Claim C10: the sample counter `pmod_clocks` is incremented before the
injected channel values are computed; after the `n+1` edges ending in a
sample boundary the counter equals the number of sample boundaries seen
so far (`n / 256 + 1`, never 0 — the first boundary injects values
computed from counter value 1), and the values injected on the boundary
are the pure injection functions applied to this counter and to nothing
else. -/
theorem C10_counter_injection (i0 i1 i3 : Nat → Int) (n : Nat)
    (hn : n < 2 ^ 32) (hb : n % 256 = 0) :
    (audioRun i0 i1 i3 (n + 1)).pmodClocks = sampleBoundaries (n + 1) ∧
    sampleBoundaries (n + 1) = n / 256 + 1 ∧
    0 < (audioRun i0 i1 i3 (n + 1)).pmodClocks ∧
    (audioRun i0 i1 i3 (n + 1)).inj0 = i0 ((audioRun i0 i1 i3 (n + 1)).pmodClocks) ∧
    (audioRun i0 i1 i3 (n + 1)).inj1 = i1 ((audioRun i0 i1 i3 (n + 1)).pmodClocks) ∧
    (audioRun i0 i1 i3 (n + 1)).inj3 = i3 ((audioRun i0 i1 i3 (n + 1)).pmodClocks) := by
  obtain ⟨hm, hp⟩ := audioRun_counters i0 i1 i3 (n + 1)
  have hsb : sampleBoundaries (n + 1) = n / 256 + 1 := by
    rw [sampleBoundaries_eq_ceil]
    omega
  have hpc : (audioRun i0 i1 i3 (n + 1)).pmodClocks = n / 256 + 1 := by
    rw [hp]
    omega
  refine ⟨by rw [hpc, hsb], hsb, by omega, ?_, ?_, ?_⟩ <;>
  · rw [audioRun_succ] at hpc ⊢
    obtain ⟨hm', _⟩ := audioRun_counters i0 i1 i3 n
    have hmod : (audioRun i0 i1 i3 n).modPmod % 256 = 0 := by
      rw [hm', Nat.mod_mod_of_dvd n (by norm_num)]
      exact hb
    unfold audioEdge at hpc ⊢
    rw [if_pos hmod] at hpc ⊢

/-- Witness for C10: the very first sample boundary (edge 0) leaves the
counter at 1 and injects the identity functions applied to 1. -/
theorem C10_counter_injection_witness :
    ((0 : Nat) < 2 ^ 32 ∧ (0 : Nat) % 256 = 0) ∧
    ((audioRun injId injId injId 1).pmodClocks = sampleBoundaries 1 ∧
      sampleBoundaries 1 = 0 / 256 + 1 ∧
      0 < (audioRun injId injId injId 1).pmodClocks ∧
      (audioRun injId injId injId 1).inj0 =
        injId ((audioRun injId injId injId 1).pmodClocks) ∧
      (audioRun injId injId injId 1).inj1 =
        injId ((audioRun injId injId injId 1).pmodClocks) ∧
      (audioRun injId injId injId 1).inj3 =
        injId ((audioRun injId injId injId 1).pmodClocks)) :=
  ⟨⟨by decide, by decide⟩,
    C10_counter_injection injId injId injId 0 (by decide) (by decide)⟩

/-- Claim C4: on an active pixel-clock edge with sampled coordinate
`(x, y)` inside the active area, the three channel bytes are written into
the frame buffer at row-major offsets `(y*max_x + x)*3 + c`; coordinates
outside the active area leave the frame buffer unchanged; and exactly
when `(x, y) = (max_x - 1, max_y - 1)` the completed frame buffer is
handed to the image sink tagged with the current frame index, which then
increases by one. -/
theorem C4_display_capture (H V : Nat) (o : DviOut) (s : DviCapture)
    (hH : 0 < H) (hV : 0 < V) :
    (o.x < H → o.y < V →
      ((dviEdgeProcess H V o s).image (fbIndex H o.x o.y 0) = o.r % 256 ∧
       (dviEdgeProcess H V o s).image (fbIndex H o.x o.y 1) = o.g % 256 ∧
       (dviEdgeProcess H V o s).image (fbIndex H o.x o.y 2) = o.b % 256) ∧
      (∀ i, i ≠ fbIndex H o.x o.y 0 → i ≠ fbIndex H o.x o.y 1 →
        i ≠ fbIndex H o.x o.y 2 →
        (dviEdgeProcess H V o s).image i = s.image i)) ∧
    (¬ (o.x < H ∧ o.y < V) →
      ∀ i, (dviEdgeProcess H V o s).image i = s.image i) ∧
    (o.x = H - 1 ∧ o.y = V - 1 →
      (dviEdgeProcess H V o s).emitted =
        s.emitted ++ [(s.frames, (dviEdgeProcess H V o s).image)] ∧
      (dviEdgeProcess H V o s).frames = s.frames + 1) ∧
    (¬ (o.x = H - 1 ∧ o.y = V - 1) →
      (dviEdgeProcess H V o s).emitted = s.emitted ∧
      (dviEdgeProcess H V o s).frames = s.frames) := by
  refine ⟨?_, ?_, ?_, ?_⟩
  · intro hx hy
    rw [dviEdgeProcess_image, if_pos ⟨hx, hy⟩]
    constructor
    · refine ⟨?_, ?_, ?_⟩ <;> simp only [memWriteByte]
      · rw [if_neg (by simp only [fbIndex]; omega),
            if_neg (by simp only [fbIndex]; omega)]
        simp
      · rw [if_neg (by simp only [fbIndex]; omega)]
        simp
      · simp
    · intro i hi0 hi1 hi2
      simp only [memWriteByte]
      rw [if_neg hi2, if_neg hi1, if_neg hi0]
  · intro hout i
    rw [dviEdgeProcess_image, if_neg hout]
  · intro hlast
    exact ⟨by rw [dviEdgeProcess_emitted, if_pos hlast],
           by rw [dviEdgeProcess_frames, if_pos hlast]⟩
  · intro hnl
    exact ⟨by rw [dviEdgeProcess_emitted, if_neg hnl],
           by rw [dviEdgeProcess_frames, if_neg hnl]⟩

/-- Witness for C4: a 1x1 display receiving pixel (0, 0) with channels
(5, 6, 7) stores them at offsets 0, 1, 2 and emits the frame tagged 0. -/
theorem C4_display_capture_witness :
    ((0 : Nat) < 1 ∧ (0 : Nat) < 1) ∧
    (dviEdgeProcess 1 1 { x := 0, y := 0, r := 5, g := 6, b := 7 }
        { image := fun _ => 0, frames := 0, emitted := [] }).image (fbIndex 1 0 0 0) = 5 ∧
    (dviEdgeProcess 1 1 { x := 0, y := 0, r := 5, g := 6, b := 7 }
        { image := fun _ => 0, frames := 0, emitted := [] }).frames = 1 :=
  ⟨⟨by decide, by decide⟩,
    (((C4_display_capture 1 1 { x := 0, y := 0, r := 5, g := 6, b := 7 }
        { image := fun _ => 0, frames := 0, emitted := [] }
        (by decide) (by decide)).1 (by decide) (by decide)).1).1,
    ((C4_display_capture 1 1 { x := 0, y := 0, r := 5, g := 6, b := 7 }
        { image := fun _ => 0, frames := 0, emitted := [] }
        (by decide) (by decide)).2.2.1 (by decide)).2⟩

/-- The PSRAM after one sync edge: written iff the (re-sampled) bus
asserts write-ready. -/
lemma syncEdgeProcess_psram (busPre busMid : CoreBus) (m : Mem) (rdv : Nat) :
    (syncEdgeProcess busPre busMid m rdv).psram =
      if (effBus busPre busMid).writeReady then
        psramWriteWord m (effBus busPre busMid).addressPtr
          (effBus busPre busMid).writeData
      else m := by
  simp only [syncEdgeProcess]
  split_ifs <;> rfl

/-- `read_data_view` after a sync edge with read-ready asserted. -/
lemma syncEdgeProcess_rdv_read (busPre busMid : CoreBus) (m : Mem) (rdv : Nat)
    (hr : busPre.readReady = true) :
    (syncEdgeProcess busPre busMid m rdv).readDataView =
      psramReadWord m busPre.addressPtr % 2 ^ 32 := by
  simp only [syncEdgeProcess, hr]
  split_ifs <;> rfl

/-- The event trace of one sync edge. -/
lemma syncEdgeProcess_events (busPre busMid : CoreBus) (m : Mem) (rdv : Nat) :
    (syncEdgeProcess busPre busMid m rdv).events =
      (if busPre.readReady then
        [BusEvent.readAccess busPre.addressPtr
           (psramReadWord m busPre.addressPtr % 2 ^ 32), BusEvent.coreEval]
       else []) ++
      (if (effBus busPre busMid).writeReady then
        [BusEvent.writeAccess (effBus busPre busMid).addressPtr
           (effBus busPre busMid).writeData, BusEvent.coreEval]
       else []) := by
  simp only [syncEdgeProcess]
  split_ifs <;> rfl

/-- The truncated little-endian word assembled by the emulator equals the
weighted byte sum, on any byte-valued memory. -/
lemma psramReadWord_eq (m : Mem) (a : Nat) (hm : ∀ i, m i < 256) :
    psramReadWord m a % 2 ^ 32 =
      m (a + 0) + 2 ^ 8 * m (a + 1) + 2 ^ 16 * m (a + 2) + 2 ^ 24 * m (a + 3) := by
  unfold psramReadWord
  rw [leAssemble _ _ _ _ (hm (a + 0)) (hm (a + 1)) (hm (a + 2)) (hm (a + 3))]
  have h0 := hm (a + 0)
  have h1 := hm (a + 1)
  have h2 := hm (a + 2)
  have h3 := hm (a + 3)
  omega

/-- Claim C3: on an active sync edge, read-ready makes the emulator
return the little-endian word assembled from the four consecutive bytes
at the address pointer (byte `A` as bits 0-7 up to byte `A+3` as bits
24-31); write-ready makes it decompose the 32-bit write word into four
little-endian bytes stored at `A..A+3` leaving all other bytes unchanged;
and after each such access the core is re-evaluated before the edge
processing of the tick completes. -/
theorem C3_sync_edge_contract (busPre busMid : CoreBus) (m : Mem) (rdv : Nat)
    (hm : ∀ i, m i < 256) :
    (busPre.readReady = true →
      (syncEdgeProcess busPre busMid m rdv).readDataView =
        m (busPre.addressPtr + 0) + 2 ^ 8 * m (busPre.addressPtr + 1) +
          2 ^ 16 * m (busPre.addressPtr + 2) + 2 ^ 24 * m (busPre.addressPtr + 3)) ∧
    ((effBus busPre busMid).writeReady = true →
      ((syncEdgeProcess busPre busMid m rdv).psram
          ((effBus busPre busMid).addressPtr + 0) =
            ((effBus busPre busMid).writeData >>> 0) % 256 ∧
       (syncEdgeProcess busPre busMid m rdv).psram
          ((effBus busPre busMid).addressPtr + 1) =
            ((effBus busPre busMid).writeData >>> 8) % 256 ∧
       (syncEdgeProcess busPre busMid m rdv).psram
          ((effBus busPre busMid).addressPtr + 2) =
            ((effBus busPre busMid).writeData >>> 16) % 256 ∧
       (syncEdgeProcess busPre busMid m rdv).psram
          ((effBus busPre busMid).addressPtr + 3) =
            ((effBus busPre busMid).writeData >>> 24) % 256) ∧
      (∀ i, i ≠ (effBus busPre busMid).addressPtr →
        i ≠ (effBus busPre busMid).addressPtr + 1 →
        i ≠ (effBus busPre busMid).addressPtr + 2 →
        i ≠ (effBus busPre busMid).addressPtr + 3 →
        (syncEdgeProcess busPre busMid m rdv).psram i = m i)) ∧
    ((effBus busPre busMid).writeReady = false →
      ∀ i, (syncEdgeProcess busPre busMid m rdv).psram i = m i) ∧
    evalAfterAccess (syncEdgeProcess busPre busMid m rdv).events ∧
    (busPre.readReady = true →
      ∃ j a w, (syncEdgeProcess busPre busMid m rdv).events.get? j =
        some (BusEvent.readAccess a w)) ∧
    ((effBus busPre busMid).writeReady = true →
      ∃ j a w, (syncEdgeProcess busPre busMid m rdv).events.get? j =
        some (BusEvent.writeAccess a w)) := by
  refine ⟨?_, ?_, ?_, ?_, ?_, ?_⟩
  · intro hr
    rw [syncEdgeProcess_rdv_read busPre busMid m rdv hr]
    exact psramReadWord_eq m busPre.addressPtr hm
  · intro hw
    rw [syncEdgeProcess_psram, if_pos hw]
    refine ⟨⟨?_, ?_, ?_, ?_⟩, ?_⟩
    · exact psramWriteWord_byte0 m _ _
    · exact psramWriteWord_byte1 m _ _
    · exact psramWriteWord_byte2 m _ _
    · exact psramWriteWord_byte3 m _ _
    · intro i hi0 hi1 hi2 hi3
      exact psramWriteWord_frame m _ _ i hi0 hi1 hi2 hi3
  · intro hw i
    rw [syncEdgeProcess_psram, if_neg (by simp [hw])]
  · rw [syncEdgeProcess_events]
    by_cases hr : busPre.readReady <;>
      by_cases hw : (effBus busPre busMid).writeReady <;>
      simp only [hr, hw, if_true, if_false, List.nil_append, List.append_nil] <;>
      intro j a w hj <;>
      rcases j with _ | _ | _ | _ | j <;>
      simp_all [List.get?]
  · intro hr
    refine ⟨0, busPre.addressPtr, psramReadWord m busPre.addressPtr % 2 ^ 32, ?_⟩
    rw [syncEdgeProcess_events]
    simp [hr]
  · intro hw
    rw [syncEdgeProcess_events]
    by_cases hr : busPre.readReady
    · exact ⟨2, (effBus busPre busMid).addressPtr, (effBus busPre busMid).writeData,
        by simp [hr, hw, List.get?]⟩
    · exact ⟨0, (effBus busPre busMid).addressPtr, (effBus busPre busMid).writeData,
        by simp [hr, hw, List.get?]⟩

/-- Witness for C3: a sync edge with read-ready on address 8 over the
constant-7 memory assembles `0x07070707`, and the write re-sampled from
the post-step outputs stores `513 = 0x201` little-endian at 12. -/
theorem C3_sync_edge_contract_witness :
    (∀ i : Nat, (fun _ => 7 : Mem) i < 256) ∧
    (syncEdgeProcess { readReady := true, writeReady := false, addressPtr := 8, writeData := 0 }
        { readReady := false, writeReady := true, addressPtr := 12, writeData := 513 }
        (fun _ => 7) 0).readDataView =
      7 + 2 ^ 8 * 7 + 2 ^ 16 * 7 + 2 ^ 24 * 7 ∧
    (syncEdgeProcess { readReady := true, writeReady := false, addressPtr := 8, writeData := 0 }
        { readReady := false, writeReady := true, addressPtr := 12, writeData := 513 }
        (fun _ => 7) 0).psram (12 + 0) = (513 >>> 0) % 256 ∧
    (syncEdgeProcess { readReady := true, writeReady := false, addressPtr := 8, writeData := 0 }
        { readReady := false, writeReady := true, addressPtr := 12, writeData := 513 }
        (fun _ => 7) 0).psram (12 + 1) = (513 >>> 8) % 256 ∧
    evalAfterAccess
      (syncEdgeProcess { readReady := true, writeReady := false, addressPtr := 8, writeData := 0 }
        { readReady := false, writeReady := true, addressPtr := 12, writeData := 513 }
        (fun _ => 7) 0).events :=
  ⟨fun _ => by norm_num,
    (C3_sync_edge_contract
      { readReady := true, writeReady := false, addressPtr := 8, writeData := 0 }
      { readReady := false, writeReady := true, addressPtr := 12, writeData := 513 }
      (fun _ => 7) 0 (fun _ => by norm_num)).1 rfl,
    ((C3_sync_edge_contract
      { readReady := true, writeReady := false, addressPtr := 8, writeData := 0 }
      { readReady := false, writeReady := true, addressPtr := 12, writeData := 513 }
      (fun _ => 7) 0 (fun _ => by norm_num)).2.1 rfl).1.1,
    ((C3_sync_edge_contract
      { readReady := true, writeReady := false, addressPtr := 8, writeData := 0 }
      { readReady := false, writeReady := true, addressPtr := 12, writeData := 513 }
      (fun _ => 7) 0 (fun _ => by norm_num)).2.1 rfl).1.2.1,
    (C3_sync_edge_contract
      { readReady := true, writeReady := false, addressPtr := 8, writeData := 0 }
      { readReady := false, writeReady := true, addressPtr := 12, writeData := 513 }
      (fun _ => 7) 0 (fun _ => by norm_num)).2.2.2.1⟩

/-- The DVI stage never touches the flash store or the published flash
word. -/
lemma selftestDviStage_flash_spiflash (H V hdvi t : Nat) (inp : SelftestIn)
    (s : SelftestSt) :
    (selftestDviStage H V hdvi t inp s).flash = s.flash ∧
    (selftestDviStage H V hdvi t inp s).spiflashData = s.spiflashData := by
  simp only [selftestDviStage]
  split_ifs <;> exact ⟨rfl, rfl⟩

/-- The sync stage never touches the flash store or the published flash
word. -/
lemma selftestSyncStage_flash_spiflash (hsync t : Nat) (inp : SelftestIn)
    (s : SelftestSt) :
    (selftestSyncStage hsync t inp s).flash = s.flash ∧
    (selftestSyncStage hsync t inp s).spiflashData = s.spiflashData := by
  simp only [selftestSyncStage]
  split_ifs <;> exact ⟨rfl, rfl⟩

/-- The audio stage never touches the flash store or the published flash
word. -/
lemma selftestAudioStage_flash_spiflash (haudio t : Nat) (s : SelftestSt) :
    (selftestAudioStage haudio t s).flash = s.flash ∧
    (selftestAudioStage haudio t s).spiflashData = s.spiflashData := by
  simp only [selftestAudioStage]
  split_ifs <;> exact ⟨rfl, rfl⟩

/-- Claim C7: at session start the flash backing store is zero-filled
with the firmware image loaded at byte offset `O` (all bytes outside
`[O, O + len)` are zero and the loaded bytes reflect the image exactly);
on every simulated tick the emulator publishes the 32-bit word at the
core-provided address to the core's flash read-data input; and no
simulation step ever modifies the flash backing store. -/
theorem C7_flash_contract (off i j H V hdvi hsync haudio t : Nat) (fw : List Nat)
    (inp : SelftestIn) (s : SelftestSt)
    (hout : i < off ∨ off + fw.length ≤ i)
    (hin : j < fw.length) (hbytes : ∀ b ∈ fw, b < 256) :
    initFlash off fw i = 0 ∧
    initFlash off fw (off + j) = fw.getD j 0 ∧
    (selftestTick H V hdvi hsync haudio t inp s).spiflashData =
      flashWordAt s.flash inp.spiflashAddr ∧
    (selftestTick H V hdvi hsync haudio t inp s).flash = s.flash := by
  refine ⟨?_, ?_, ?_, ?_⟩
  · unfold initFlash
    rw [if_neg (by omega)]
  · unfold initFlash
    rw [if_pos (by omega)]
    have hmem : fw.getD j 0 ∈ fw := by
      rw [List.getD_eq_getElem fw 0 hin]
      exact List.getElem_mem hin
    have : fw.getD j 0 < 256 := hbytes _ hmem
    have harg : off + j - off = j := by omega
    rw [harg, Nat.mod_eq_of_lt this]
  · unfold selftestTick
    rw [(selftestAudioStage_flash_spiflash _ _ _).2,
        (selftestSyncStage_flash_spiflash _ _ _ _).2,
        (selftestDviStage_flash_spiflash _ _ _ _ _ _).2]
  · unfold selftestTick
    rw [(selftestAudioStage_flash_spiflash _ _ _).1,
        (selftestSyncStage_flash_spiflash _ _ _ _).1,
        (selftestDviStage_flash_spiflash _ _ _ _ _ _).1]

/-- Witness for C7: firmware `[10, 20]` at offset 2 in an otherwise zero
flash; byte 5 (outside the image, beyond its end) is zero, byte 3 is the
second firmware byte, and one concrete selftest tick republishes the
flash word and leaves the flash unchanged. -/
theorem C7_flash_contract_witness :
    (((5 : Nat) < 2 ∨ 2 + 2 ≤ 5) ∧ (1 : Nat) < 2) ∧
    (initFlash 2 [10, 20] 5 = 0 ∧
     initFlash 2 [10, 20] (2 + 1) = 20 ∧
     (selftestTick 4 4 2 4 8 0
        { spiflashAddr := 0,
          dvi := { x := 0, y := 0, r := 0, g := 0, b := 0 },
          bus := { readReady := false, writeReady := false, addressPtr := 0, writeData := 0 },
          uartStb := false, uartData := 0 }
        { flash := initFlash 2 [10, 20], spiflashData := 0, clkDvi := false,
          clkSync := false, clkAudio := false,
          capture := { image := fun _ => 0, frames := 0, emitted := [] },
          psram := fun _ => 0, readDataView := 0, serialBytes := [],
          modPmod := 0, pmodClocks := 0, fsStrobe := false }).spiflashData =
       flashWordAt (initFlash 2 [10, 20]) 0 ∧
     (selftestTick 4 4 2 4 8 0
        { spiflashAddr := 0,
          dvi := { x := 0, y := 0, r := 0, g := 0, b := 0 },
          bus := { readReady := false, writeReady := false, addressPtr := 0, writeData := 0 },
          uartStb := false, uartData := 0 }
        { flash := initFlash 2 [10, 20], spiflashData := 0, clkDvi := false,
          clkSync := false, clkAudio := false,
          capture := { image := fun _ => 0, frames := 0, emitted := [] },
          psram := fun _ => 0, readDataView := 0, serialBytes := [],
          modPmod := 0, pmodClocks := 0, fsStrobe := false }).flash = initFlash 2 [10, 20]) :=
  ⟨⟨Or.inr (by decide), by decide⟩,
    C7_flash_contract 2 5 1 4 4 2 4 8 0 [10, 20]
      { spiflashAddr := 0,
        dvi := { x := 0, y := 0, r := 0, g := 0, b := 0 },
        bus := { readReady := false, writeReady := false, addressPtr := 0, writeData := 0 },
        uartStb := false, uartData := 0 }
      { flash := initFlash 2 [10, 20], spiflashData := 0, clkDvi := false,
        clkSync := false, clkAudio := false,
        capture := { image := fun _ => 0, frames := 0, emitted := [] },
        psram := fun _ => 0, readDataView := 0, serialBytes := [],
        modPmod := 0, pmodClocks := 0, fsStrobe := false }
      (Or.inr (by decide)) (by decide) (by decide)⟩

/-- Claim C8: the harness is deterministic — two runs with identical
configuration (half-periods, display area, synthetic-stimulus parameters
and core model) from the same start state reach, after the same number of
loop iterations, identical states: in particular identical injected audio
values for every sample counter value, identical captured frames and
identical counters. -/
theorem C8_run_deterministic {κ : Type} (cfg : SimCfg κ) (s0 : SimSt κ)
    (n : Nat) (s1 s2 : SimSt κ)
    (h1 : SimRun cfg s0 n s1) (h2 : SimRun cfg s0 n s2) : s1 = s2 := by
  induction n generalizing s1 s2 with
  | zero =>
      cases h1
      cases h2
      rfl
  | succ n ih =>
      cases h1 with
      | tick h1p =>
          cases h2 with
          | tick h2p => rw [ih _ _ h1p h2p]

/-- Witness for C8: two one-tick runs of the concrete unit-core session
reach the same state. -/
theorem C8_run_deterministic_witness :
    simTick unitSimCfg 0 unitSimStart = simTick unitSimCfg 0 unitSimStart :=
  C8_run_deterministic unitSimCfg unitSimStart 1
    (simTick unitSimCfg 0 unitSimStart) (simTick unitSimCfg 0 unitSimStart)
    (SimRun.tick SimRun.start) (SimRun.tick SimRun.start)

end Tiliqua
